import Mathlib

/-!
Shallow embedding of the haaukins lab/exercise core.

Source files embedded here:
* `lab` package (hub, semaphores, addLab/Get/NewHub) — the resource pool;
* `exercise` package (Config, ContainerOpts, exercise Create/Start/Stop/Close/Reset).

External collaborators (docker runtime, vbox hypervisor, virtual network) are
modelled as oracle functions supplied in an environment structure; machine and
lab instances are abstract handles modelled as natural-number ids.  Go errors
are a small inductive type; `nil` errors are `Option.none`.  Go maps are
modelled as association lists where assignment prepends a binding and lookup
returns the most recent binding for a key, which is observationally equivalent
for the get/set operations the code uses (the code never iterates a map).
-/

/-- Error values of the embedded packages.  `backend s` stands for an error
value returned verbatim by an external collaborator; `outOfRange` models a Go
index-out-of-range panic. -/
inductive Err where
  | availableSize
  | maximumLabs
  | couldNotFindLab
  | duplicateTag
  | missingTags
  | unknownTag
  | backend (msg : String)
  | outOfRange
  deriving Repr, DecidableEq

/-- Abstract handle to a running machine instance (container or VM). -/
abbrev Instance := Nat

/-- Go `map[string]string` as an association list: assignment prepends, lookup
takes the most recent binding. -/
abbrev StrMap := List (String × String)

/-- Go map assignment `m[k] = v`. -/
def mapSet (m : StrMap) (k v : String) : StrMap := (k, v) :: m

/-- Go map lookup `m[k]` (with its `ok` flag folded into `Option`). -/
def mapGet (m : StrMap) (k : String) : Option String :=
  (m.find? (fun p => p.1 = k)).map (·.2)

/-! ## Blueprint data model (`exercise` package) -/

structure RecordConfig where
  Name  : String
  -- the source field is called `Type`, a keyword in Lean
  Typ   : String
  RData : String
  deriving Repr, DecidableEq

structure FlagConfig where
  Name    : String
  EnvVar  : String
  Default : String
  Points  : Nat
  deriving Repr, DecidableEq

structure EnvVarConfig where
  EnvVar : String
  Value  : String
  deriving Repr, DecidableEq

structure DockerConfig where
  Image    : String
  Flags    : List FlagConfig
  Envs     : List EnvVarConfig
  Records  : List RecordConfig
  MemoryMB : Nat
  -- CPU is a float64 in the source; it is pure payload (never computed on),
  -- modelled as a natural number.
  CPU      : Nat
  deriving Repr, DecidableEq

structure VBoxConfig where
  Image    : String
  MemoryMB : Nat
  Flags    : List FlagConfig
  deriving Repr, DecidableEq

structure Config where
  Name        : String
  Tags        : List String
  DockerConfs : List DockerConfig
  VBoxConfig  : List VBoxConfig
  deriving Repr, DecidableEq

structure Resources where
  MemoryMB : Nat
  CPU      : Nat
  deriving Repr, DecidableEq

/-- `docker.ContainerConfig` — the launch spec handed to the container
runtime. -/
structure ContainerConfig where
  Image      : String
  Resources  : Resources
  EnvVars    : StrMap
  DNS        : List String
  MacAddress : String
  deriving Repr, DecidableEq

/-- `Config.Flags`: aggregate all flag definitions across both spec lists. -/
def Config.Flags (conf : Config) : List FlagConfig :=
  (conf.DockerConfs.foldl (fun res dockerConf => res ++ dockerConf.Flags) [])
    ++ (conf.VBoxConfig.foldl (fun res vboxConf => res ++ vboxConf.Flags) [])

/-- The environment map built for one container spec inside `ContainerOpts`:
flag defaults first, explicit overrides second. -/
def envVarsOf (conf : DockerConfig) : StrMap :=
  conf.Envs.foldl (fun m env => mapSet m env.EnvVar env.Value)
    (conf.Flags.foldl (fun m flag => mapSet m flag.EnvVar flag.Default) [])

/-- The launch spec built for one container spec inside `ContainerOpts`.
`DNS` and `MacAddress` are left at their zero values there; `Create` fills
`DNS` in later. -/
def mkContainerSpec (conf : DockerConfig) : ContainerConfig :=
  { Image := conf.Image
    Resources := { MemoryMB := conf.MemoryMB, CPU := conf.CPU }
    EnvVars := envVarsOf conf
    DNS := []
    MacAddress := "" }

/-- The loop body of `Config.ContainerOpts`: one launch spec and one DNS
record-template list appended per container spec, in order. -/
def containerOptsLoop : List DockerConfig → List ContainerConfig × List (List RecordConfig)
  | [] => ([], [])
  | conf :: rest =>
    let (specs, recs) := containerOptsLoop rest
    (mkContainerSpec conf :: specs, conf.Records :: recs)

/-- `Config.ContainerOpts`: expand each container spec into a launch spec plus
its DNS record templates. -/
def Config.ContainerOpts (ec : Config) : List ContainerConfig × List (List RecordConfig) :=
  containerOptsLoop ec.DockerConfs

/-! ## Exercise lifecycle (`exercise` package)

The docker host, the virtual network and the vbox library are external
collaborators; they appear as oracle functions in `ExEnv`.  The per-machine
`Start`/`Close` calls of `virtual.Instance` are oracles as well (`none` result
means success, `some e` the returned error). -/

structure ExEnv where
  /-- `dockerHost.CreateContainer`. -/
  createContainer : ContainerConfig → Except Err Instance
  /-- `net.Connect(c, mac, ips...)`; the `Option Nat` is the variadic desired
  IP suffix, the returned `Nat` the assigned suffix (`lastDigit`). -/
  connect : Instance → String → Option Nat → Except Err Nat
  /-- `net.FormatIP`. -/
  formatIP : Nat → String
  /-- `net.Interface()`. -/
  netInterface : String
  /-- `lib.GetCopy(image, vbox.SetBridge(bridge))`. -/
  getCopy : String → String → Except Err Instance
  /-- `m.Start()` on a machine instance (`none` = success). -/
  startI : Instance → Option Err
  /-- `m.Close()` on a machine instance (`none` = success). -/
  closeI : Instance → Option Err

/-- The mutable fields of the `exercise` struct.  `ips == none` models the Go
nil slice (the slice is non-nil exactly when at least one suffix was ever
appended). -/
structure ExState where
  machines   : List Instance
  ips        : Option (List Nat)
  dnsIP      : String
  dnsRecords : List RecordConfig
  deriving Repr, DecidableEq

/-- Result of the container loop of `exercise.Create`.  `log` records, per
connected container in order, the desired-suffix argument passed to
`net.Connect` and the suffix it assigned. -/
structure LoopResult where
  machines   : List Instance
  newIps     : List Nat
  dnsRecords : List RecordConfig
  log        : List (Option Nat × Nat)
  err        : Option Err
  deriving Repr, DecidableEq

/-- The container loop of `exercise.Create` (`for i, spec := range containers`).
On failure the loop stops: machines and suffixes of earlier iterations are in
the result (the caller discards them, as the locals `machines`/`newIps` are
discarded on early return), and so are the DNS records of earlier iterations
(which the source appends to `e.dnsRecords` in place, so they persist). -/
def createLoop (env : ExEnv) (dnsIP : String) (ips : Option (List Nat)) :
    Nat → List (ContainerConfig × List RecordConfig) → LoopResult
  | _, [] => ⟨[], [], [], [], none⟩
  | i, (spec, recs) :: rest =>
    let spec := { spec with DNS := [dnsIP] }
    match env.createContainer spec with
    | .error e => ⟨[], [], [], [], some e⟩
    | .ok c =>
      -- `lastDigit` together with the desired-suffix argument used to get it
      let step : Except Err (Nat × Option Nat) :=
        match ips with
        | some l =>
          -- containers need specific ips: `e.net.Connect(c, spec.MacAddress, e.ips[i])`
          match l[i]? with
          | some d => (env.connect c spec.MacAddress (some d)).map (fun n => (n, some d))
          | none => .error .outOfRange
        | none =>
          -- let network assign ips
          (env.connect c spec.MacAddress none).map (fun n => (n, none))
      match step with
      | .error e => ⟨[], [], [], [], some e⟩
      | .ok (lastDigit, desired) =>
        let ipaddr := env.formatIP lastDigit
        let resolved := recs.map (fun record =>
          if record.RData = "" then { record with RData := ipaddr } else record)
        let tail := createLoop env dnsIP ips (i + 1) rest
        ⟨c :: tail.machines,
         (match ips with | none => [lastDigit] | some _ => []) ++ tail.newIps,
         resolved ++ tail.dnsRecords,
         (desired, lastDigit) :: tail.log,
         tail.err⟩

/-- The VM loop of `exercise.Create` (`for _, spec := range e.conf.VBoxConfig`):
one `GetCopy` per VM spec, stopping at the first error.  The machines built
before a failure are locals and are discarded with it. -/
def vmLoop (env : ExEnv) (bridge : String) : List VBoxConfig → Except Err (List Instance)
  | [] => .ok []
  | spec :: rest =>
    match env.getCopy spec.Image bridge with
    | .error e => .error e
    | .ok vm => (vmLoop env bridge rest).map (vm :: ·)

/-- `exercise.Create`.  Returns the updated state, the connect log of the
container loop, and the error (if any).  On error only `dnsRecords` has grown;
`machines` and `ips` are committed from the locals only on full success. -/
def ExState.create (env : ExEnv) (conf : Config) (e : ExState) :
    ExState × List (Option Nat × Nat) × Option Err :=
  let containers := conf.ContainerOpts.1
  let records := conf.ContainerOpts.2
  let lr := createLoop env e.dnsIP e.ips 0 (containers.zip records)
  match lr.err with
  | some err => ({ e with dnsRecords := e.dnsRecords ++ lr.dnsRecords }, lr.log, some err)
  | none =>
    match vmLoop env env.netInterface conf.VBoxConfig with
    | .error err => ({ e with dnsRecords := e.dnsRecords ++ lr.dnsRecords }, lr.log, some err)
    | .ok vms =>
      -- `if e.ips == nil { e.ips = newIps }`: `newIps` is itself nil when the
      -- loop never appended to it
      let ips := match e.ips with
        | none => if lr.newIps.isEmpty then none else some lr.newIps
        | some l => some l
      ({ e with machines := lr.machines ++ vms
                ips := ips
                dnsRecords := e.dnsRecords ++ lr.dnsRecords }, lr.log, none)

/-- The loop of `exercise.Start`: start every machine in list order, stopping
at the first error. -/
def startLoop (env : ExEnv) : List Instance → Option Err
  | [] => none
  | m :: rest =>
    match env.startI m with
    | some e => some e
    | none => startLoop env rest

/-- `exercise.Start`. -/
def ExState.start (env : ExEnv) (e : ExState) : Option Err :=
  startLoop env e.machines

/-- The loop of `exercise.Stop`: close every machine in list order, stopping at
the first error. -/
def stopLoop (env : ExEnv) : List Instance → Option Err
  | [] => none
  | m :: rest =>
    match env.closeI m with
    | some e => some e
    | none => stopLoop env rest

/-- `exercise.Stop` (machine list is untouched). -/
def ExState.stop (env : ExEnv) (e : ExState) : ExState × Option Err :=
  (e, stopLoop env e.machines)

/-- The loop of `exercise.Close` — textually the same loop as `exercise.Stop`. -/
def closeLoop (env : ExEnv) : List Instance → Option Err
  | [] => none
  | m :: rest =>
    match env.closeI m with
    | some e => some e
    | none => closeLoop env rest

/-- `exercise.Close`: close every machine; only after the loop finished with no
error is `e.machines = nil` executed. -/
def ExState.close (env : ExEnv) (e : ExState) : ExState × Option Err :=
  match closeLoop env e.machines with
  | some err => (e, some err)
  | none => ({ e with machines := [] }, none)

/-- `exercise.Reset`: stop, then start. -/
def ExState.reset (env : ExEnv) (e : ExState) : ExState × Option Err :=
  match e.stop env with
  | (e, some err) => (e, some err)
  | (e, none) =>
    match e.start env with
    | some err => (e, some err)
    | none => (e, none)

/-! ## Resource pool (`lab` package)

A sequential small-step model of one `hub`.  A `semaphore` with `n` buffered
permits is its available-permit count; the warm buffer channel is a FIFO list
bounded by `bufferCap`.  `addLab` and `Get` are modelled as atomic calls of a
single task; `semaphore.claim` on an empty pool blocks, which the model
signals as `Option.none` (no sequential execution reaches it). -/

/-- Abstract handle to a Lab built by the lab factory. -/
abbrev Lab := Nat

/-- `BUFFERSIZE`, the low-water mark of `hub.Get`. -/
def BUFFERSIZE : Int := 5

/-- The mutable state of a `hub`: the two semaphores' available permits, the
warm buffer channel (FIFO, capacity `bufferCap`), the `numbLabs` counter and
the dispensed-lab list `labs`. -/
structure HubState where
  maxAvail    : Nat
  createAvail : Nat
  bufferCap   : Nat
  buffer      : List Lab
  numbLabs    : Int
  labs        : List Lab
  deriving Repr, DecidableEq

/-- `hub.addLab`, one atomic execution.  `newLab` is the outcome of
`h.labHost.NewLab` and `startLab` the outcome of `lab.Start` for the built
lab.  The result is `none` when the call would block on `createSema.claim`,
otherwise the new state, the returned error (if any) and the number of lab
factory invocations made (0 or 1). -/
def addLab (newLab : Except Err Lab) (startLab : Lab → Option Err) (s : HubState) :
    Option (HubState × Option Err × Nat) :=
  if s.maxAvail = 0 then
    some (s, some .maximumLabs, 0)
  else
    -- h.maximumSema.claim() — a permit is available, checked just above
    let s := { s with maxAvail := s.maxAvail - 1 }
    if s.createAvail = 0 then
      none  -- h.createSema.claim() would block
    else
      let s := { s with createAvail := s.createAvail - 1 }
      -- `defer h.createSema.release()` puts the create permit back on every
      -- return path below
      match newLab with
      | .error e => some ({ s with createAvail := s.createAvail + 1 }, some e, 1)
      | .ok lab =>
        match startLab lab with
        | some e =>
          -- the half-built lab is closed asynchronously (best effort); that
          -- teardown touches no hub state
          some ({ s with createAvail := s.createAvail + 1 }, some e, 1)
        | none =>
          -- non-blocking send: enqueue iff the buffer has room, else drop
          let s :=
            if s.buffer.length < s.bufferCap then
              { s with buffer := s.buffer ++ [lab], numbLabs := s.numbLabs + 1 }
            else s
          some ({ s with createAvail := s.createAvail + 1 }, none, 1)

/-- `hub.Available`: the atomic read of `numbLabs`. -/
def HubState.Available (s : HubState) : Int := s.numbLabs

/-- `hub.Get`, one atomic execution.  Returns the new state, the dequeued lab
or the error, and whether a replenishing `addLab` goroutine was spawned (that
goroutine runs later and is not part of this step). -/
def HubState.Get (s : HubState) : HubState × Option Lab × Option Err × Bool :=
  match s.buffer with
  | [] => (s, none, some .maximumLabs, false)
  | lab :: rest =>
    let s := { s with buffer := rest, numbLabs := s.numbLabs - 1 }
    let replenish := s.numbLabs < BUFFERSIZE
    let s := { s with labs := s.labs ++ [lab] }
    (s, some lab, none, replenish)

/-- `hub.GetLabByTag`, with the tag of each lab given by the oracle `tagOf`. -/
def HubState.GetLabByTag (tagOf : Lab → String) (s : HubState) (tag : String) :
    Except Err Lab :=
  match s.labs.find? (fun lab => tag = tagOf lab) with
  | some lab => .ok lab
  | none => .error .couldNotFindLab

/-- The loop of `hub.init`, sequentialised: the `available` construction
goroutines run one after another, the n-th using the factory outcome
`factories n`; each one's error is logged, not propagated.  Returns the final
state and the total number of lab-factory invocations. -/
def initLoop (factories : Nat → Except Err Lab) (startLab : Lab → Option Err) :
    Nat → HubState → HubState × Nat
  | 0, s => (s, 0)
  | n + 1, s =>
    match addLab (factories n) startLab s with
    | none => (s, 0)  -- blocked construction task; unreachable sequentially
    | some (s, _, calls) =>
      let (s, rest) := initLoop factories startLab n s
      (s, calls + rest)

/-- `NewHub(ctx, conf, vboxLib, available, cap)`.  Returns the pool (or none),
the error (or none), and the number of lab-factory invocations made.  The two
size arguments are Go `int`s. -/
def NewHub (factories : Nat → Except Err Lab) (startLab : Lab → Option Err)
    (available cap : Int) : Option HubState × Option Err × Nat :=
  if available > cap then
    (none, some .availableSize, 0)
  else
    let createLimit : Nat := 3
    let h : HubState :=
      { maxAvail := cap.toNat
        createAvail := createLimit
        bufferCap := available.toNat
        buffer := []
        numbLabs := 0
        labs := [] }
    let (h, calls) := initLoop factories startLab available.toNat h
    (some h, none, calls)


/-! ## Concrete instances used to exercise the definitions -/

/-- An environment in which every collaborator succeeds: the runtime hands out
container id 1, the network honours a desired suffix and otherwise assigns 9,
and the hypervisor hands out VM id 7. -/
def okEnv : ExEnv :=
  { createContainer := fun _ => .ok 1
    connect := fun _ _ d => .ok (d.getD 9)
    formatIP := fun n => toString n
    netInterface := "br"
    getCopy := fun _ _ => .ok 7
    startI := fun _ => none
    closeI := fun _ => none }

/-- `okEnv` with a failing container runtime. -/
def failEnv : ExEnv :=
  { okEnv with createContainer := fun _ => .error (.backend "boom") }

/-- A blueprint with one container spec (one flag, one override, one blank DNS
record) and one VM spec. -/
def demoConf : Config :=
  { Name := "demo"
    Tags := ["demo"]
    DockerConfs := [{ Image := "img"
                      Flags := [⟨"flag", "X", "1", 0⟩]
                      Envs := [⟨"X", "2"⟩]
                      Records := [⟨"rec", "A", ""⟩]
                      MemoryMB := 0
                      CPU := 0 }]
    VBoxConfig := [{ Image := "vm", MemoryMB := 0, Flags := [] }] }

/-- A fresh exercise state (no machines, nil suffix slice). -/
def exInit : ExState := ⟨[], none, "dns", []⟩

/-- The exercise state `demoConf` reaches after a first successful create under
`okEnv`. -/
def exRunning : ExState := ⟨[1, 7], some [9], "dns", [⟨"rec", "A", "9"⟩]⟩

/-- A container spec whose two flag definitions share the env key `X`. -/
def dupFlagDc : DockerConfig :=
  ⟨"img", [⟨"f1", "X", "1", 0⟩, ⟨"f2", "X", "2", 0⟩], [], [], 0, 0⟩

/-- A blueprint holding just `dupFlagDc`. -/
def dupFlagConf : Config := ⟨"dup", [], [dupFlagDc], []⟩

/-! ## Helper lemmas: association-list maps -/

/-- Folding Go-map assignments over a list of bindings. -/
def setFold (ps : List (String × String)) (m : StrMap) : StrMap :=
  ps.foldl (fun m p => mapSet m p.1 p.2) m

theorem setFold_eq (ps : List (String × String)) (m : StrMap) :
    setFold ps m = ps.reverse ++ m := by
  induction ps generalizing m with
  | nil => simp [setFold]
  | cons p rest ih =>
    simp only [setFold, List.foldl_cons, List.reverse_cons]
    rw [show List.foldl (fun m p => mapSet m p.1 p.2) (mapSet m p.1 p.2) rest
          = setFold rest (mapSet m p.1 p.2) from rfl, ih]
    simp [mapSet]

theorem mapGet_append (ps qs : StrMap) (k : String) :
    mapGet (ps ++ qs) k = ((mapGet ps k).orElse fun _ => mapGet qs k) := by
  induction ps with
  | nil => simp [mapGet]
  | cons p rest ih =>
    by_cases hp : p.1 = k
    · simp [mapGet, List.find?, hp]
    · simpa [mapGet, List.find?, hp] using ih

theorem mapGet_eq_none (ps : StrMap) (k : String) (h : ∀ p ∈ ps, p.1 ≠ k) :
    mapGet ps k = none := by
  induction ps with
  | nil => simp [mapGet]
  | cons p rest ih =>
    have hp : p.1 ≠ k := h p (by simp)
    simpa [mapGet, List.find?, hp] using ih fun q hq => h q (by simp [hq])

theorem mapGet_unique_key (ps : StrMap) (k v : String)
    (hmem : (k, v) ∈ ps) (hnd : (ps.map Prod.fst).Nodup) :
    mapGet ps k = some v := by
  induction ps with
  | nil => simp at hmem
  | cons p rest ih =>
    simp only [List.map_cons, List.nodup_cons] at hnd
    rcases List.mem_cons.mp hmem with hp | hp
    · subst hp
      simp [mapGet, List.find?]
    · have hne : p.1 ≠ k := by
        intro hk
        exact hnd.1 (hk ▸ (List.mem_map.mpr ⟨(k, v), hp, rfl⟩))
      simpa [mapGet, List.find?, hne] using ih hp hnd.2

theorem envVarsOf_eq (dc : DockerConfig) :
    envVarsOf dc
      = (dc.Envs.map fun o => (o.EnvVar, o.Value)).reverse
          ++ (dc.Flags.map fun f => (f.EnvVar, f.Default)).reverse := by
  have h : envVarsOf dc
      = setFold (dc.Envs.map fun o => (o.EnvVar, o.Value))
          (setFold (dc.Flags.map fun f => (f.EnvVar, f.Default)) []) := by
    simp [envVarsOf, setFold, List.foldl_map]
  rw [h, setFold_eq, setFold_eq, List.append_nil]

theorem envVarsOf_override (dc : DockerConfig) (o : EnvVarConfig)
    (ho : o ∈ dc.Envs) (hnd : (dc.Envs.map EnvVarConfig.EnvVar).Nodup) :
    mapGet (envVarsOf dc) o.EnvVar = some o.Value := by
  rw [envVarsOf_eq, mapGet_append]
  have h : mapGet (dc.Envs.map fun o => (o.EnvVar, o.Value)).reverse o.EnvVar
      = some o.Value := by
    apply mapGet_unique_key
    · exact List.mem_reverse.mpr (List.mem_map.mpr ⟨o, ho, rfl⟩)
    · rw [List.map_reverse, List.nodup_reverse, List.map_map]
      simpa [Function.comp] using hnd
  simp [h]

theorem envVarsOf_flag (dc : DockerConfig) (f : FlagConfig)
    (hf : f ∈ dc.Flags) (hnd : (dc.Flags.map FlagConfig.EnvVar).Nodup)
    (hno : ∀ o ∈ dc.Envs, o.EnvVar ≠ f.EnvVar) :
    mapGet (envVarsOf dc) f.EnvVar = some f.Default := by
  rw [envVarsOf_eq, mapGet_append]
  have h0 : mapGet (dc.Envs.map fun o => (o.EnvVar, o.Value)).reverse f.EnvVar
      = none := by
    apply mapGet_eq_none
    intro p hp
    rcases List.mem_map.mp (List.mem_reverse.mp hp) with ⟨o, ho, rfl⟩
    exact hno o ho
  have h1 : mapGet (dc.Flags.map fun g => (g.EnvVar, g.Default)).reverse f.EnvVar
      = some f.Default := by
    apply mapGet_unique_key
    · exact List.mem_reverse.mpr (List.mem_map.mpr ⟨f, hf, rfl⟩)
    · rw [List.map_reverse, List.nodup_reverse, List.map_map]
      simpa [Function.comp] using hnd
  simp [h0, h1]

theorem containerOptsLoop_fst (dcs : List DockerConfig) :
    (containerOptsLoop dcs).1 = dcs.map mkContainerSpec := by
  induction dcs with
  | nil => rfl
  | cons dc rest ih => simp [containerOptsLoop, ih]

theorem containerOptsLoop_snd (dcs : List DockerConfig) :
    (containerOptsLoop dcs).2 = dcs.map DockerConfig.Records := by
  induction dcs with
  | nil => rfl
  | cons dc rest ih => simp [containerOptsLoop, ih]

/-! ## Helper lemmas: the container loop of `Create` -/

theorem createLoop_success (env : ExEnv) (dns : String) (ips : Option (List Nat)) :
    ∀ (specs : List (ContainerConfig × List RecordConfig)) (i : Nat),
      (createLoop env dns ips i specs).err = none →
      (createLoop env dns ips i specs).machines.length = specs.length ∧
      (createLoop env dns ips i specs).log.length = specs.length ∧
      (createLoop env dns ips i specs).newIps
        = (match ips with
            | none => (createLoop env dns ips i specs).log.map Prod.snd
            | some _ => []) := by
  intro specs
  induction specs with
  | nil =>
    intro i _
    cases ips <;> simp [createLoop]
  | cons sr rest ih =>
    obtain ⟨spec, recs⟩ := sr
    intro i h
    cases hcc : env.createContainer { spec with DNS := [dns] } with
    | error e => simp [createLoop, hcc] at h
    | ok c =>
      cases hips : ips with
      | none =>
        subst hips
        cases hcn : env.connect c spec.MacAddress none with
        | error e => simp [createLoop, hcc, hcn, Except.map] at h
        | ok n =>
          simp only [createLoop, hcc, hcn, Except.map] at h ⊢
          have hrec := ih (i + 1) h
          simp [hrec.1, hrec.2.1, hrec.2.2]
      | some l =>
        subst hips
        cases hli : l[i]? with
        | none => simp [createLoop, hcc, hli] at h
        | some d =>
          cases hcn : env.connect c spec.MacAddress (some d) with
          | error e => simp [createLoop, hcc, hli, hcn, Except.map] at h
          | ok n =>
            simp only [createLoop, hcc, hli, hcn, Except.map] at h ⊢
            have hrec := ih (i + 1) h
            simp [hrec.1, hrec.2.1, hrec.2.2]

theorem createLoop_reuse_desired (env : ExEnv) (dns : String) (l : List Nat) :
    ∀ (specs : List (ContainerConfig × List RecordConfig)) (i : Nat),
      (createLoop env dns (some l) i specs).err = none →
      (createLoop env dns (some l) i specs).log.map Prod.fst
        = ((l.drop i).take specs.length).map some := by
  intro specs
  induction specs with
  | nil => intro i _; simp [createLoop]
  | cons sr rest ih =>
    obtain ⟨spec, recs⟩ := sr
    intro i h
    cases hcc : env.createContainer { spec with DNS := [dns] } with
    | error e => simp [createLoop, hcc] at h
    | ok c =>
      cases hli : l[i]? with
      | none => simp [createLoop, hcc, hli] at h
      | some d =>
        cases hcn : env.connect c spec.MacAddress (some d) with
        | error e => simp [createLoop, hcc, hli, hcn, Except.map] at h
        | ok n =>
          simp only [createLoop, hcc, hli, hcn, Except.map] at h ⊢
          obtain ⟨hi, hd⟩ := List.getElem?_eq_some.mp hli
          rw [List.drop_eq_getElem_cons hi, hd]
          simp only [List.length_cons, List.take_succ_cons, List.map_cons]
          simpa using ih (i + 1) h

theorem createLoop_reuse_assigned (env : ExEnv) (dns : String) (l : List Nat)
    (honest : ∀ c mac d, env.connect c mac (some d) = .ok d) :
    ∀ (specs : List (ContainerConfig × List RecordConfig)) (i : Nat),
      (createLoop env dns (some l) i specs).err = none →
      (createLoop env dns (some l) i specs).log.map Prod.snd
        = (l.drop i).take specs.length := by
  intro specs
  induction specs with
  | nil => intro i _; simp [createLoop]
  | cons sr rest ih =>
    obtain ⟨spec, recs⟩ := sr
    intro i h
    cases hcc : env.createContainer { spec with DNS := [dns] } with
    | error e => simp [createLoop, hcc] at h
    | ok c =>
      cases hli : l[i]? with
      | none => simp [createLoop, hcc, hli] at h
      | some d =>
        have hcn : env.connect c spec.MacAddress (some d) = .ok d :=
          honest c spec.MacAddress d
        simp only [createLoop, hcc, hli, hcn, Except.map] at h ⊢
        obtain ⟨hi, hd⟩ := List.getElem?_eq_some.mp hli
        rw [List.drop_eq_getElem_cons hi, hd]
        simp only [List.length_cons, List.take_succ_cons, List.map_cons]
        simpa using ih (i + 1) h

/-- The container-loop argument `Create` builds for a blueprint. -/
def createSpecs (conf : Config) : List (ContainerConfig × List RecordConfig) :=
  conf.ContainerOpts.1.zip conf.ContainerOpts.2

theorem createSpecs_length (conf : Config) :
    (createSpecs conf).length = conf.DockerConfs.length := by
  simp [createSpecs, Config.ContainerOpts, containerOptsLoop_fst, containerOptsLoop_snd]

theorem create_success_cases (env : ExEnv) (conf : Config) (e e' : ExState)
    (log : List (Option Nat × Nat))
    (h : e.create env conf = (e', log, none)) :
    ∃ vms,
      (createLoop env e.dnsIP e.ips 0 (createSpecs conf)).err = none ∧
      vmLoop env env.netInterface conf.VBoxConfig = .ok vms ∧
      log = (createLoop env e.dnsIP e.ips 0 (createSpecs conf)).log ∧
      e' = { e with
        machines := (createLoop env e.dnsIP e.ips 0 (createSpecs conf)).machines ++ vms
        ips := match e.ips with
          | none =>
            if (createLoop env e.dnsIP e.ips 0 (createSpecs conf)).newIps.isEmpty
            then none
            else some (createLoop env e.dnsIP e.ips 0 (createSpecs conf)).newIps
          | some l => some l
        dnsRecords :=
          e.dnsRecords ++ (createLoop env e.dnsIP e.ips 0 (createSpecs conf)).dnsRecords } := by
  simp only [ExState.create] at h
  rw [show conf.ContainerOpts.1.zip conf.ContainerOpts.2 = createSpecs conf from rfl] at h
  cases herr : (createLoop env e.dnsIP e.ips 0 (createSpecs conf)).err with
  | some err => rw [herr] at h; simp at h
  | none =>
    rw [herr] at h
    cases hvm : vmLoop env env.netInterface conf.VBoxConfig with
    | error err => rw [hvm] at h; simp at h
    | ok vms =>
      rw [hvm] at h
      simp only [Prod.mk.injEq] at h
      exact ⟨vms, rfl, rfl, h.2.1.symm, h.1.symm⟩

theorem create_error_cases (env : ExEnv) (conf : Config) (e e' : ExState)
    (log : List (Option Nat × Nat)) (err : Err)
    (h : e.create env conf = (e', log, some err)) :
    e' = { e with
      dnsRecords :=
        e.dnsRecords ++ (createLoop env e.dnsIP e.ips 0 (createSpecs conf)).dnsRecords } := by
  simp only [ExState.create] at h
  rw [show conf.ContainerOpts.1.zip conf.ContainerOpts.2 = createSpecs conf from rfl] at h
  cases herr : (createLoop env e.dnsIP e.ips 0 (createSpecs conf)).err with
  | some e2 =>
    rw [herr] at h
    simp only [Prod.mk.injEq] at h
    exact h.1.symm
  | none =>
    rw [herr] at h
    cases hvm : vmLoop env env.netInterface conf.VBoxConfig with
    | error e2 =>
      rw [hvm] at h
      simp only [Prod.mk.injEq] at h
      exact h.1.symm
    | ok vms => rw [hvm] at h; simp at h

theorem vmLoop_ok_length (env : ExEnv) (bridge : String) :
    ∀ (specs : List VBoxConfig) (vms : List Instance),
      vmLoop env bridge specs = .ok vms → vms.length = specs.length := by
  intro specs
  induction specs with
  | nil => intro vms h; simp [vmLoop] at h; simp [← h]
  | cons spec rest ih =>
    intro vms h
    cases hg : env.getCopy spec.Image bridge with
    | error e => simp [vmLoop, hg] at h
    | ok vm =>
      cases hr : vmLoop env bridge rest with
      | error e => simp [vmLoop, hg, hr, Except.map] at h
      | ok tailVms =>
        simp [vmLoop, hg, hr, Except.map] at h
        simp [← h, ih tailVms hr]

theorem closeLoop_eq_stopLoop (env : ExEnv) (ms : List Instance) :
    closeLoop env ms = stopLoop env ms := by
  induction ms with
  | nil => rfl
  | cons m rest ih =>
    cases h : env.closeI m with
    | some e => simp [closeLoop, stopLoop, h]
    | none => simp [closeLoop, stopLoop, h, ih]

theorem closeLoop_none (env : ExEnv) (ms : List Instance)
    (h : ∀ m ∈ ms, env.closeI m = none) : closeLoop env ms = none := by
  induction ms with
  | nil => rfl
  | cons m rest ih =>
    have hm := h m (by simp)
    simp only [closeLoop, hm]
    exact ih fun x hx => h x (by simp [hx])

theorem closeLoop_first_error (env : ExEnv) (pre : List Instance) (bad : Instance)
    (rest : List Instance) (err : Err)
    (hpre : ∀ m ∈ pre, env.closeI m = none) (hbad : env.closeI bad = some err) :
    closeLoop env (pre ++ bad :: rest) = some err := by
  induction pre with
  | nil => simp [closeLoop, hbad]
  | cons m pre ih =>
    have hm := hpre m (by simp)
    simp only [List.cons_append, closeLoop, hm]
    exact ih fun x hx => hpre x (by simp [hx])

/-! ## Claim theorems -/

/-- C1: whenever `addLab` reaches the lab-factory call (a capacity permit was
available and the create permit could be claimed) and the factory fails with
error `e`, `addLab` returns exactly that error, the create permit is back
(`createAvail` unchanged), and the capacity permit stays claimed (`maxAvail`
is one lower); buffer, counter and dispensed list are untouched. -/
theorem addLab_factory_failure_keeps_capacity_permit (e : Err)
    (startLab : Lab → Option Err) (s : HubState)
    (hmax : s.maxAvail ≠ 0) (hcreate : s.createAvail ≠ 0) :
    addLab (.error e) startLab s
      = some ({ s with maxAvail := s.maxAvail - 1 }, some e, 1) := by
  have h1 : s.createAvail - 1 + 1 = s.createAvail :=
    Nat.succ_pred_eq_of_pos (Nat.pos_of_ne_zero hcreate)
  simp [addLab, hmax, hcreate, h1]

theorem addLab_factory_failure_keeps_capacity_permit_witness :
    addLab (.error (.backend "boom")) (fun _ => none) ⟨2, 3, 1, [], 0, []⟩
      = some (⟨1, 3, 1, [], 0, []⟩, some (.backend "boom"), 1) := by
  have h := addLab_factory_failure_keeps_capacity_permit (.backend "boom")
    (fun _ => none) ⟨2, 3, 1, [], 0, []⟩ (by decide) (by decide)
  simpa using h

/-- C4: for `warmSize > hardCap`, `NewHub` returns no pool, the
`AvailableSizeErr` error, and performs zero lab-factory invocations. -/
theorem newHub_warm_exceeds_cap (factories : Nat → Except Err Lab)
    (startLab : Lab → Option Err) (available cap : Int) (h : available > cap) :
    NewHub factories startLab available cap = (none, some .availableSize, 0) := by
  simp [NewHub, h]

theorem newHub_warm_exceeds_cap_witness :
    NewHub (fun _ => .ok 0) (fun _ => none) 1 0 = (none, some .availableSize, 0) :=
  newHub_warm_exceeds_cap (fun _ => .ok 0) (fun _ => none) 1 0 (by decide)

/-- C5: `Get` on a hub whose counter matches the buffer occupancy and reports
`available() == 0` returns `MaximumLabsErr` and leaves the state (dispensed
list, counter, buffer) entirely unchanged, scheduling nothing. -/
theorem get_on_empty_buffer (s : HubState)
    (hinv : s.numbLabs = s.buffer.length)
    (h : s.Available = 0) :
    s.Get = (s, none, some .maximumLabs, false) := by
  simp only [HubState.Available] at h
  rw [h] at hinv
  have hb : s.buffer = [] := List.length_eq_zero.mp (by exact_mod_cast hinv.symm)
  simp [HubState.Get, hb]

theorem get_on_empty_buffer_witness :
    HubState.Get ⟨2, 3, 1, [], 0, []⟩ = (⟨2, 3, 1, [], 0, []⟩, none, some .maximumLabs, false) :=
  get_on_empty_buffer ⟨2, 3, 1, [], 0, []⟩ (by decide) (by decide)

/-- C6: every `Get` call that returns a lab decreases `Available` by exactly 1
and appends exactly that lab as the single new entry of the dispensed-lab
list. -/
theorem get_success_effects (s s' : HubState) (lab : Lab) (b : Bool)
    (h : s.Get = (s', some lab, none, b)) :
    s'.Available = s.Available - 1 ∧ s'.labs = s.labs ++ [lab] := by
  cases hb : s.buffer with
  | nil => simp [HubState.Get, hb] at h
  | cons l rest =>
    simp only [HubState.Get, hb, Prod.mk.injEq, Option.some.injEq] at h
    obtain ⟨hs, hl, -⟩ := h
    subst hl
    rw [← hs]
    simp [HubState.Available]

theorem get_success_effects_witness :
    HubState.Available ⟨1, 3, 1, [], 0, [4]⟩ = HubState.Available ⟨1, 3, 1, [4], 1, []⟩ - 1 ∧
    HubState.labs ⟨1, 3, 1, [], 0, [4]⟩ = HubState.labs ⟨1, 3, 1, [4], 1, []⟩ ++ [4] :=
  get_success_effects ⟨1, 3, 1, [4], 1, []⟩ ⟨1, 3, 1, [], 0, [4]⟩ 4 true (by decide)

/-- C8: `Close` on an exercise whose machines all close successfully returns
no error and empties the machine list; if the machines are `pre ++ bad :: rest`
where every machine of `pre` closes fine and `bad` fails with `err`, `Close`
returns that first error and the machine list keeps all its entries. -/
theorem close_success_and_failure (env : ExEnv) (e : ExState) :
    ((∀ m ∈ e.machines, env.closeI m = none) →
      e.close env = ({ e with machines := [] }, none)) ∧
    (∀ pre bad rest err, e.machines = pre ++ bad :: rest →
      (∀ m ∈ pre, env.closeI m = none) → env.closeI bad = some err →
      e.close env = (e, some err)) := by
  constructor
  · intro hall
    simp [ExState.close, closeLoop_none env e.machines hall]
  · intro pre bad rest err hm hpre hbad
    have hloop : closeLoop env e.machines = some err := by
      rw [hm]; exact closeLoop_first_error env pre bad rest err hpre hbad
    simp [ExState.close, hloop]

theorem close_success_and_failure_witness :
    ExState.close okEnv exRunning = ({ exRunning with machines := [] }, none) :=
  (close_success_and_failure okEnv exRunning).1 (fun _ _ => rfl)

/-- C10: `Close` performs exactly the per-machine closes of `Stop` (in list
order, first error returned) and differs only by clearing the machine list
when that loop fully succeeds: `Close` equals `Stop` followed, on success, by
emptying the machine list. -/
theorem close_eq_stop_then_clear (env : ExEnv) (e : ExState) :
    e.close env
      = (match e.stop env with
          | (s, some err) => (s, some err)
          | (s, none) => ({ s with machines := [] }, none)) := by
  rw [ExState.close, ExState.stop, closeLoop_eq_stopLoop]
  cases stopLoop env e.machines <;> rfl

/-- C9: whenever `Create` returns an error, the machine list and the recorded
IP-suffix list are exactly what they were before the call; only the resolved
DNS-record list may have grown (by the records of the containers processed
before the failure). -/
theorem create_error_frame (env : ExEnv) (conf : Config) (e e' : ExState)
    (log : List (Option Nat × Nat)) (err : Err)
    (h : e.create env conf = (e', log, some err)) :
    e'.machines = e.machines ∧ e'.ips = e.ips ∧
      ∃ extra, e'.dnsRecords = e.dnsRecords ++ extra := by
  have he' := create_error_cases env conf e e' log err h
  subst he'
  exact ⟨rfl, rfl, _, rfl⟩

theorem create_error_frame_witness :
    ExState.machines { exInit with
        dnsRecords := exInit.dnsRecords
          ++ (createLoop failEnv exInit.dnsIP exInit.ips 0 (createSpecs demoConf)).dnsRecords }
      = exInit.machines ∧
    ExState.ips { exInit with
        dnsRecords := exInit.dnsRecords
          ++ (createLoop failEnv exInit.dnsIP exInit.ips 0 (createSpecs demoConf)).dnsRecords }
      = exInit.ips ∧
    ∃ extra,
      ExState.dnsRecords { exInit with
          dnsRecords := exInit.dnsRecords
            ++ (createLoop failEnv exInit.dnsIP exInit.ips 0 (createSpecs demoConf)).dnsRecords }
        = exInit.dnsRecords ++ extra :=
  create_error_frame failEnv demoConf exInit _ [] (.backend "boom") (by decide)

/-- C2: after a successful `Create` on an exercise whose recorded suffix list
is absent or already sized to the blueprint (the states `Create` itself
produces), the machine list is the container-loop machines followed by the VM
machines — `m` containers first, then `k` VMs, `m + k` in total — and the
recorded IP-suffix list has exactly `m` entries. -/
theorem create_success_machine_and_ips_counts (env : ExEnv) (conf : Config)
    (e e' : ExState) (log : List (Option Nat × Nat))
    (hips : ∀ l, e.ips = some l → l.length = conf.DockerConfs.length)
    (h : e.create env conf = (e', log, none)) :
    ∃ vms,
      vmLoop env env.netInterface conf.VBoxConfig = .ok vms ∧
      e'.machines = (createLoop env e.dnsIP e.ips 0 (createSpecs conf)).machines ++ vms ∧
      (createLoop env e.dnsIP e.ips 0 (createSpecs conf)).machines.length
        = conf.DockerConfs.length ∧
      vms.length = conf.VBoxConfig.length ∧
      e'.machines.length = conf.DockerConfs.length + conf.VBoxConfig.length ∧
      (e'.ips.getD []).length = conf.DockerConfs.length := by
  obtain ⟨vms, herr, hvm, hlog, he'⟩ := create_success_cases env conf e e' log h
  have hsucc := createLoop_success env e.dnsIP e.ips (createSpecs conf) 0 herr
  have hslen : (createSpecs conf).length = conf.DockerConfs.length := createSpecs_length conf
  have hml : (createLoop env e.dnsIP e.ips 0 (createSpecs conf)).machines.length
      = conf.DockerConfs.length := by rw [hsucc.1, hslen]
  have hvl : vms.length = conf.VBoxConfig.length :=
    vmLoop_ok_length env env.netInterface conf.VBoxConfig vms hvm
  refine ⟨vms, hvm, by rw [he'], hml, hvl, ?_, ?_⟩
  · rw [he']
    simp [hml, hvl]
  · rw [he']
    cases hcase : e.ips with
    | some l =>
      simp only [hcase]
      simpa using hips l hcase
    | none =>
      rw [hcase] at hsucc
      have hni : (createLoop env e.dnsIP none 0 (createSpecs conf)).newIps.length
          = conf.DockerConfs.length := by
        rw [hsucc.2.2]
        simp [hsucc.2.1, hslen]
      simp only [hcase]
      by_cases hemp : (createLoop env e.dnsIP none 0 (createSpecs conf)).newIps.isEmpty
      · have h0 : (createLoop env e.dnsIP none 0 (createSpecs conf)).newIps = [] :=
          List.isEmpty_iff.mp hemp
        rw [h0] at hni
        simp [hemp, ← hni]
      · simp [hemp, hni]

theorem create_success_machine_and_ips_counts_witness :
    ∃ vms,
      vmLoop okEnv okEnv.netInterface demoConf.VBoxConfig = .ok vms ∧
      ExState.machines exRunning
        = (createLoop okEnv exInit.dnsIP exInit.ips 0 (createSpecs demoConf)).machines ++ vms ∧
      (createLoop okEnv exInit.dnsIP exInit.ips 0 (createSpecs demoConf)).machines.length
        = demoConf.DockerConfs.length ∧
      vms.length = demoConf.VBoxConfig.length ∧
      (ExState.machines exRunning).length
        = demoConf.DockerConfs.length + demoConf.VBoxConfig.length ∧
      ((ExState.ips exRunning).getD []).length = demoConf.DockerConfs.length :=
  create_success_machine_and_ips_counts okEnv demoConf exInit exRunning [(none, 9)]
    (fun l hl => by simp [exInit] at hl) (by decide)

/-- C3: starting from a fresh exercise (nil suffix slice), a successful
`Create` followed by another successful `Create` (the re-create a reset cycle
performs) passes, at every container position, exactly the suffix recorded by
the first run as the desired address to `net.Connect`, leaves the recorded
suffix list unchanged, and — since the network honours a requested suffix —
assigns the identical addresses in both cycles. -/
theorem create_twice_reuses_recorded_suffixes (env : ExEnv) (conf : Config)
    (e e1 e2 : ExState) (log1 log2 : List (Option Nat × Nat))
    (hips : e.ips = none)
    (honest : ∀ c mac d, env.connect c mac (some d) = .ok d)
    (h1 : e.create env conf = (e1, log1, none))
    (h2 : e1.create env conf = (e2, log2, none)) :
    log2.map Prod.fst = (log1.map Prod.snd).map some ∧
    log2.map Prod.snd = log1.map Prod.snd ∧
    e2.ips = e1.ips := by
  obtain ⟨vms1, herr1, hvm1, hlog1, he1⟩ := create_success_cases env conf e e1 log1 h1
  rw [hips] at herr1 hlog1 he1
  obtain ⟨vms2, herr2, hvm2, hlog2, he2⟩ := create_success_cases env conf e1 e2 log2 h2
  have hsucc1 := createLoop_success env e.dnsIP none (createSpecs conf) 0 herr1
  have hdns1 : e1.dnsIP = e.dnsIP := by rw [he1]
  have hnew : (createLoop env e.dnsIP none 0 (createSpecs conf)).newIps
      = log1.map Prod.snd := by
    rw [hsucc1.2.2, hlog1]
  have hips1 : e1.ips
      = (if (createLoop env e.dnsIP none 0 (createSpecs conf)).newIps.isEmpty then none
         else some (createLoop env e.dnsIP none 0 (createSpecs conf)).newIps) := by
    rw [he1]
  by_cases hemp : (createLoop env e.dnsIP none 0 (createSpecs conf)).newIps.isEmpty
  · -- the blueprint has no container specs: both runs connect nothing
    have h0 : (createLoop env e.dnsIP none 0 (createSpecs conf)).newIps = [] :=
      List.isEmpty_iff.mp hemp
    have hlog1nil : log1 = [] := by
      have := hnew.symm.trans h0
      exact List.map_eq_nil_iff.mp this
    have hspecs : createSpecs conf = [] := by
      have hl := hsucc1.2.1
      rw [hlog1.symm, hlog1nil] at hl
      exact List.length_eq_zero.mp hl.symm
    have hips1' : e1.ips = none := by rw [hips1, hemp]; rfl
    rw [hspecs] at hlog2 he2
    have hlog2nil : log2 = [] := by rw [hlog2]; rfl
    refine ⟨by simp [hlog1nil, hlog2nil], by simp [hlog1nil, hlog2nil], ?_⟩
    rw [he2, hips1']
    rfl
  · -- at least one container: the first run recorded `log1.map Prod.snd`
    have hips1' : e1.ips = some (log1.map Prod.snd) := by
      rw [hips1, if_neg hemp, hnew]
    have hlen : (log1.map Prod.snd).length = (createSpecs conf).length := by
      rw [List.length_map, hlog1]
      exact hsucc1.2.1
    rw [hdns1, hips1'] at herr2 hlog2 he2
    have hfst := createLoop_reuse_desired env e.dnsIP (log1.map Prod.snd)
      (createSpecs conf) 0 herr2
    have hsnd := createLoop_reuse_assigned env e.dnsIP (log1.map Prod.snd) honest
      (createSpecs conf) 0 herr2
    rw [List.drop_zero, ← hlen, List.take_length] at hfst hsnd
    refine ⟨by rw [hlog2]; exact hfst, by rw [hlog2]; exact hsnd, ?_⟩
    rw [he2, hips1']

theorem create_twice_reuses_recorded_suffixes_witness :
    ([((some 9 : Option Nat), 9)].map Prod.fst
        = ([((none : Option Nat), 9)].map Prod.snd).map some) ∧
    ([((some 9 : Option Nat), 9)].map Prod.snd
        = [((none : Option Nat), 9)].map Prod.snd) ∧
    ExState.ips ⟨[1, 7], some [9], "dns", [⟨"rec", "A", "9"⟩, ⟨"rec", "A", "9"⟩]⟩
        = ExState.ips exRunning :=
  create_twice_reuses_recorded_suffixes okEnv demoConf exInit exRunning
    ⟨[1, 7], some [9], "dns", [⟨"rec", "A", "9"⟩, ⟨"rec", "A", "9"⟩]⟩
    [(none, 9)] [(some 9, 9)] rfl (fun _ _ _ => rfl) (by decide) (by decide)

/-- C7 (amended): for every container spec whose flag definitions carry
pairwise-distinct env keys and whose explicit overrides carry
pairwise-distinct env keys, the launch spec built by `ContainerOpts` maps
every override's key to the override's value (the override wins on a
flag/override collision) and every non-overridden flag's key to the flag's
default. -/
theorem containerOpts_env_merge (conf : Config) (i : Nat) (dc : DockerConfig)
    (hdc : conf.DockerConfs[i]? = some dc)
    (hflags : (dc.Flags.map FlagConfig.EnvVar).Nodup)
    (henvs : (dc.Envs.map EnvVarConfig.EnvVar).Nodup) :
    ∃ spec, conf.ContainerOpts.1[i]? = some spec ∧
      (∀ o ∈ dc.Envs, mapGet spec.EnvVars o.EnvVar = some o.Value) ∧
      (∀ f ∈ dc.Flags, (∀ o ∈ dc.Envs, o.EnvVar ≠ f.EnvVar) →
        mapGet spec.EnvVars f.EnvVar = some f.Default) := by
  refine ⟨mkContainerSpec dc, ?_, ?_, ?_⟩
  · rw [Config.ContainerOpts, containerOptsLoop_fst, List.getElem?_map, hdc]
    rfl
  · intro o ho
    exact envVarsOf_override dc o ho henvs
  · intro f hf hno
    exact envVarsOf_flag dc f hf hflags hno

theorem containerOpts_env_merge_witness :
    ∃ spec, demoConf.ContainerOpts.1[0]? = some spec ∧
      (∀ o ∈ (⟨"img", [⟨"flag", "X", "1", 0⟩], [⟨"X", "2"⟩], [⟨"rec", "A", ""⟩], 0, 0⟩
          : DockerConfig).Envs,
        mapGet spec.EnvVars o.EnvVar = some o.Value) ∧
      (∀ f ∈ (⟨"img", [⟨"flag", "X", "1", 0⟩], [⟨"X", "2"⟩], [⟨"rec", "A", ""⟩], 0, 0⟩
          : DockerConfig).Flags,
        (∀ o ∈ (⟨"img", [⟨"flag", "X", "1", 0⟩], [⟨"X", "2"⟩], [⟨"rec", "A", ""⟩], 0, 0⟩
            : DockerConfig).Envs, o.EnvVar ≠ f.EnvVar) →
        mapGet spec.EnvVars f.EnvVar = some f.Default) :=
  containerOpts_env_merge demoConf 0
    ⟨"img", [⟨"flag", "X", "1", 0⟩], [⟨"X", "2"⟩], [⟨"rec", "A", ""⟩], 0, 0⟩
    (by decide) (by decide) (by decide)

/-- C7 as frozen fails on a container spec whose two flag definitions share
the env key `X` with defaults "1" and "2" and which has no overrides: the
claim demands `X ↦ "1"` for the first flag (no override collides with it),
but the launch spec built by `ContainerOpts` maps `X` to `"2"`. -/
theorem containerOpts_env_claim_cex :
    ∃ spec, dupFlagConf.ContainerOpts.1 = [spec] ∧
      (⟨"f1", "X", "1", 0⟩ : FlagConfig) ∈ dupFlagDc.Flags ∧
      (∀ o ∈ dupFlagDc.Envs, o.EnvVar ≠ "X") ∧
      mapGet spec.EnvVars "X" ≠ some "1" :=
  ⟨mkContainerSpec dupFlagDc, by decide, by decide, by decide, by decide⟩
